import Mathlib

/-!
Shallow embedding of the instruction-encoding layer and the control/metrics
units of the buzzer fuzzing core (packages `ebpf` and `units`), together with
theorems checking the natural-language specification against the code.

Machine integers are modelled as `Nat`/`Int` with explicit wrapping where the
Go code converts between widths.  Go pointers that may be `nil` are modelled
as `Option`; a `nil` dereference (a Go panic) is modelled by a function
returning `none`.
-/

/-! ## Instruction-set constants

Modelled from the spec: the constants file of the `ebpf` package is not under
`src/`; the values follow the target instruction set's published opcode
layout referenced by the spec (instruction class in bits 0-2, size in bits
3-4, addressing mode in bits 5-7 of the opcode byte). -/

/-- Instruction class: load 64-bit immediate. -/
def InsClassLd : Nat := 0x00

/-- Instruction class: load from memory into register. -/
def InsClassLdx : Nat := 0x01

/-- Instruction class: store immediate into memory. -/
def InsClassSt : Nat := 0x02

/-- Instruction class: store register into memory. -/
def InsClassStx : Nat := 0x03

/-- Addressing mode: 64-bit immediate pseudo-mode. -/
def StLdModeIMM : Nat := 0x00

/-- Addressing mode: plain memory access. -/
def StLdModeMEM : Nat := 0x60

/-- Addressing mode: atomic read-modify-write. -/
def StLdModeATOMIC : Nat := 0xc0

/-- Operation size: word (4 bytes). -/
def StLdSizeW : Nat := 0x00

/-- Operation size: half word (2 bytes). -/
def StLdSizeH : Nat := 0x08

/-- Operation size: byte. -/
def StLdSizeB : Nat := 0x10

/-- Operation size: double word (8 bytes). -/
def StLdSizeDW : Nat := 0x18

/-- Alu operation selector: add.  Used as the atomic operation code. -/
def AluAdd : Int := 0x00

/-- Alu operation selector: or. -/
def AluOr : Int := 0x40

/-- Alu operation selector: and. -/
def AluAnd : Int := 0x50

/-- Alu operation selector: xor. -/
def AluXor : Int := 0xa0

/-! ## Register model

Modelled from the spec: the register file of the `ebpf` package is not under
`src/`.  A register is an identity-only value with a stable number (0-10) and
a canonical display name; a sentinel pseudo register tags the map-fd
immediate-load mode, carrying source-register value 1 per the code comment in
`st_ld_instructions.go`. -/

/-- A machine register: numeric identity plus canonical text form. -/
structure Register where
  registerNumber : Nat
  registerName : String
deriving DecidableEq

/-- Numeric encoding of the register, used for bit-packing. -/
def Register.RegisterNumber (r : Register) : Nat := r.registerNumber

/-- Canonical text form of the register, used in reproduction macros. -/
def Register.ToString (r : Register) : String := r.registerName

def RegR0 : Register := { registerNumber := 0, registerName := "r0" }

def RegR1 : Register := { registerNumber := 1, registerName := "r1" }

def RegR2 : Register := { registerNumber := 2, registerName := "r2" }

def RegR3 : Register := { registerNumber := 3, registerName := "r3" }

def RegR4 : Register := { registerNumber := 4, registerName := "r4" }

def RegR5 : Register := { registerNumber := 5, registerName := "r5" }

def RegR6 : Register := { registerNumber := 6, registerName := "r6" }

def RegR7 : Register := { registerNumber := 7, registerName := "r7" }

def RegR8 : Register := { registerNumber := 8, registerName := "r8" }

def RegR9 : Register := { registerNumber := 9, registerName := "r9" }

def RegR10 : Register := { registerNumber := 10, registerName := "r10" }

/-- Sentinel pseudo register signalling that the immediate of a load names a
map file descriptor (source-register field value 1). -/
def PseudoMapFD : Register := { registerNumber := 1, registerName := "pseudo" }

/-! ## Fixed-width integer helpers -/

/-- Two's-complement value of an `int32` as an unsigned 32-bit field. -/
def toUnsigned32 (i : Int) : Nat := (i % (2 ^ 32 : Int)).toNat

/-- Two's-complement value of an `int16` as an unsigned 16-bit field. -/
def toUnsigned16 (i : Int) : Nat := (i % (2 ^ 16 : Int)).toNat

/-- Signed reading of an unsigned 32-bit field. -/
def toSigned32 (n : Nat) : Int :=
  if n < 2 ^ 31 then (n : Int) else (n : Int) - 2 ^ 32

/-- Signed reading of an unsigned 16-bit field. -/
def toSigned16 (n : Nat) : Int :=
  if n < 2 ^ 15 then (n : Int) else (n : Int) - 2 ^ 16

/-- Go's `int32(x)` conversion: wrap to the signed 32-bit range. -/
def wrap32 (i : Int) : Int := (i + 2 ^ 31) % 2 ^ 32 - 2 ^ 31

/-! ## Word encoding and field decoding

Modelled from the spec: the encoding helper called by
`MemoryInstruction.GenerateBytecode` is not under `src/`.  Per the spec's
binary-format section, each instruction occupies one 64-bit word with fixed
bit positions: opcode byte in bits 0-7 (class bits 0-2, size bits 3-4, mode
bits 5-7 - disjoint bit ranges, so bitwise-or of the three tags equals their
sum), destination register in bits 8-11, source register in bits 12-15, the
16-bit signed offset in bits 16-31, and the 32-bit signed immediate in bits
32-63. -/

/-- Pack a memory load/store instruction into its 64-bit word. -/
def encodeImmediateStOrLdInstruction (insClass size mode dstNum srcNum : Nat)
    (imm off : Int) : Nat :=
  toUnsigned32 imm * 2 ^ 32 + toUnsigned16 off * 2 ^ 16 +
    srcNum % 16 * 2 ^ 12 + dstNum % 16 * 2 ^ 8 + (insClass + size + mode) % 256

/-- Field decoder: destination register number (bits 8-11). -/
def decodeDstRegNum (w : Nat) : Nat := w / 2 ^ 8 % 16

/-- Field decoder: source register number (bits 12-15). -/
def decodeSrcRegNum (w : Nat) : Nat := w / 2 ^ 12 % 16

/-- Field decoder: signed 16-bit offset (bits 16-31). -/
def decodeOffset (w : Nat) : Int := toSigned16 (w / 2 ^ 16 % 2 ^ 16)

/-- Field decoder: signed 32-bit immediate (bits 32-63). -/
def decodeImm (w : Nat) : Int := toSigned32 (w / 2 ^ 32 % 2 ^ 32)

/-- Field decoder: size tag (bits 3-4 of the opcode byte). -/
def decodeSize (w : Nat) : Nat := w / 8 % 4 * 8

/-- Field decoder: instruction class tag (bits 0-2 of the opcode byte). -/
def decodeInsClass (w : Nat) : Nat := w % 8

/-! ## The memory-instruction variant (`st_ld_instructions.go`) -/

/-- Fields shared by all instruction variants. -/
structure BaseInstruction where
  InstructionClass : Nat
  DstReg : Option Register
deriving DecidableEq

/-- An eBPF load/store operation (struct `MemoryInstruction`). -/
structure MemoryInstruction extends BaseInstruction where
  Size : Nat
  Mode : Nat
  SrcReg : Option Register
  Imm : Int
  Offset : Int
deriving DecidableEq

/-- `MemoryInstruction.GenerateBytecode`: one encoded word, plus a trailing
all-zero pseudo-instruction word when the class is load and the mode is
immediate.  Dereferencing a `nil` register (a Go panic) is `none`. -/
def MemoryInstruction.GenerateBytecode (c : MemoryInstruction) :
    Option (List Nat) :=
  match c.DstReg, c.SrcReg with
  | some d, some s =>
    let w := encodeImmediateStOrLdInstruction c.InstructionClass c.Size c.Mode
      d.RegisterNumber s.RegisterNumber c.Imm c.Offset
    if c.InstructionClass = InsClassLd ∧ c.Mode = StLdModeIMM then
      some ([w] ++ [0])
    else
      some [w]
  | _, _ => none

/-- Output of Go's `fmt` package when the `%d` verb is applied to a value of
type `string`: `%!d(string=...)`. -/
def fmtIntVerbOnString (s : String) : String := "%!d(string=" ++ s ++ ")"

/-- `MemoryInstruction.GeneratePoc`: the C macro line reproducing this
instruction.  The source formats the register names (strings) of the second
and third branches with the `%d` verb, which Go renders as
`%!d(string=...)`; this is modelled by `fmtIntVerbOnString`. -/
def MemoryInstruction.GeneratePoc (c : MemoryInstruction) :
    Option (List String) :=
  let insClassStr :=
    if c.InstructionClass = InsClassStx then "BPF_STX"
    else if c.InstructionClass = InsClassSt then "BPF_ST"
    else "BPF_LDX"
  let sizeStr :=
    if c.Size = StLdSizeW then "BPF_W"
    else if c.Size = StLdSizeH then "BPF_H"
    else if c.Size = StLdSizeB then "BPF_B"
    else if c.Size = StLdSizeDW then "BPF_DW"
    else "unknown"
  if c.InstructionClass = InsClassLd ∧ c.Mode = StLdModeIMM then
    match c.DstReg with
    | some d => some ["BPF_LD_MAP_FD(/*dst=*/" ++ d.ToString ++ ", map_fd)"]
    | none => none
  else if c.InstructionClass = InsClassStx ∨ c.InstructionClass = InsClassLdx then
    match c.DstReg, c.SrcReg with
    | some d, some s =>
      some ["BPF_MEM_OPERATION(" ++ insClassStr ++ ", " ++ sizeStr ++
        ", /*dst=*/" ++ fmtIntVerbOnString d.ToString ++
        ", /*src=*/" ++ fmtIntVerbOnString s.ToString ++
        ", /*offset=*/" ++ toString c.Offset ++ ")"]
    | _, _ => none
  else
    match c.DstReg with
    | some d =>
      some ["BPF_MEM_IMM_OPERATION(" ++ insClassStr ++ ", " ++ sizeStr ++
        ", /*dst=*/" ++ fmtIntVerbOnString d.ToString ++
        ", /*src=*/" ++ toString c.Imm ++
        ", /*offset=*/" ++ toString c.Offset ++ ")"]
    | none => none

/-! ## Construction factories -/

/-- The shape of the `interface{}`-typed `src` operand of a store factory: a
supported integer value (`isIntType` succeeds), a `*Register` (possibly a
typed nil pointer), or a value of any other shape. -/
inductive StoreSrc where
  | int (v : Int)
  | reg (r : Option Register)
  | other
deriving DecidableEq

/-- `newStoreOperation`: integer operands select class store-immediate (the
value converted by `int32(...)`), register operands select class
store-register, and any other operand shape yields `nil` (`none`). -/
def newStoreOperation (size : Nat) (dstReg : Option Register) (src : StoreSrc)
    (offset : Int) : Option MemoryInstruction :=
  match src with
  | .int v =>
    some { InstructionClass := InsClassSt, DstReg := dstReg,
           Mode := StLdModeMEM, Size := size, SrcReg := some RegR0,
           Imm := wrap32 v, Offset := offset }
  | .reg r =>
    some { InstructionClass := InsClassStx, DstReg := dstReg,
           Mode := StLdModeMEM, Size := size, SrcReg := r,
           Imm := 0, Offset := offset }
  | .other => none

/-- `StDW`: store 8 bytes. -/
def StDW (dst : Option Register) (src : StoreSrc) (offset : Int) :
    Option MemoryInstruction :=
  newStoreOperation StLdSizeDW dst src offset

/-- `StW`: store 4 bytes. -/
def StW (dst : Option Register) (src : StoreSrc) (offset : Int) :
    Option MemoryInstruction :=
  newStoreOperation StLdSizeW dst src offset

/-- `StH`: store 2 bytes. -/
def StH (dst : Option Register) (src : StoreSrc) (offset : Int) :
    Option MemoryInstruction :=
  newStoreOperation StLdSizeH dst src offset

/-- `StB`: store 1 byte. -/
def StB (dst : Option Register) (src : StoreSrc) (offset : Int) :
    Option MemoryInstruction :=
  newStoreOperation StLdSizeB dst src offset

/-- `newLoadToRegisterOperation`: class load-register, plain memory mode;
the immediate field is left at the Go zero value. -/
def newLoadToRegisterOperation (size : Nat) (dstReg src : Option Register)
    (offset : Int) : MemoryInstruction :=
  { InstructionClass := InsClassLdx, DstReg := dstReg,
    Mode := StLdModeMEM, Size := size, SrcReg := src,
    Imm := 0, Offset := offset }

/-- `LdDW`: load 8 bytes. -/
def LdDW (dst src : Option Register) (offset : Int) : MemoryInstruction :=
  newLoadToRegisterOperation StLdSizeDW dst src offset

/-- `LdW`: load 4 bytes. -/
def LdW (dst src : Option Register) (offset : Int) : MemoryInstruction :=
  newLoadToRegisterOperation StLdSizeW dst src offset

/-- `LdH`: load 2 bytes. -/
def LdH (dst src : Option Register) (offset : Int) : MemoryInstruction :=
  newLoadToRegisterOperation StLdSizeH dst src offset

/-- `LdB`: load 1 byte. -/
def LdB (dst src : Option Register) (offset : Int) : MemoryInstruction :=
  newLoadToRegisterOperation StLdSizeB dst src offset

/-- `LdMapByFd`: load a map by file descriptor: class load, immediate mode,
double-word size, the pseudo sentinel in the source-register field, the fd
converted by `int32(...)` as the immediate, offset at its zero value. -/
def LdMapByFd (dst : Option Register) (fd : Int) : MemoryInstruction :=
  { InstructionClass := InsClassLd, DstReg := dst,
    Size := StLdSizeDW, Mode := StLdModeIMM, SrcReg := some PseudoMapFD,
    Imm := wrap32 fd, Offset := 0 }

/-- `newAtomicInstruction`: atomic mode, the operation selector in the
immediate field. -/
def newAtomicInstruction (dst src : Option Register) (size cls : Nat)
    (offset : Int) (operation : Int) : MemoryInstruction :=
  { InstructionClass := cls, DstReg := dst,
    Size := size, Mode := StLdModeATOMIC, SrcReg := src,
    Imm := operation, Offset := offset }

/-- `MemAdd64`. -/
def MemAdd64 (dst src : Option Register) (offset : Int) : MemoryInstruction :=
  newAtomicInstruction dst src StLdSizeDW InsClassStx offset AluAdd

/-- `MemAdd`. -/
def MemAdd (dst src : Option Register) (offset : Int) : MemoryInstruction :=
  newAtomicInstruction dst src StLdSizeW InsClassStx offset AluAdd

/-- `MemOr64`. -/
def MemOr64 (dst src : Option Register) (offset : Int) : MemoryInstruction :=
  newAtomicInstruction dst src StLdSizeDW InsClassStx offset AluOr

/-- `MemOr`. -/
def MemOr (dst src : Option Register) (offset : Int) : MemoryInstruction :=
  newAtomicInstruction dst src StLdSizeW InsClassStx offset AluOr

/-- `MemAnd64`. -/
def MemAnd64 (dst src : Option Register) (offset : Int) : MemoryInstruction :=
  newAtomicInstruction dst src StLdSizeDW InsClassStx offset AluAnd

/-- `MemAnd`. -/
def MemAnd (dst src : Option Register) (offset : Int) : MemoryInstruction :=
  newAtomicInstruction dst src StLdSizeW InsClassStx offset AluAnd

/-- `MemXor64`. -/
def MemXor64 (dst src : Option Register) (offset : Int) : MemoryInstruction :=
  newAtomicInstruction dst src StLdSizeDW InsClassStx offset AluXor

/-- `MemXor`. -/
def MemXor (dst src : Option Register) (offset : Int) : MemoryInstruction :=
  newAtomicInstruction dst src StLdSizeW InsClassStx offset AluXor

/-! ## Control unit (`control_unit.go`)

The executor and coverage-manager collaborators are external interfaces; they
are modelled as opaque-handle values (`Nat`), with `Option` for the interface
zero value `nil`.  The strategy names are modelled from the spec (the
strategy packages are not under `src/`): a fixed set of four distinct names,
each mapping 1:1 to a concrete strategy implementation. -/

/-- Modelled from the spec: name constant of the parse-verifier-log strategy. -/
def StrategyNameParseVerifier : String := "parse_verifier"

/-- Modelled from the spec: name constant of the pointer-arithmetic strategy. -/
def StrategyNamePointerArithmetic : String := "pointer_arithmetic"

/-- Modelled from the spec: name constant of the playground strategy. -/
def StrategyNamePlayground : String := "playground"

/-- Modelled from the spec: name constant of the stack-corruption strategy. -/
def StrategyNameStackCorruption : String := "stack_corruption"

/-- The concrete strategy implementations the control unit can bind. -/
inductive StrategyKind where
  | strategyParseVerifierLog
  | strategyPointerArithmetic (instructionCount : Int)
  | strategyPlayground
  | strategyStackCorruption
deriving DecidableEq

/-- Struct `ControlUnit`: bound strategy, executor handle, run mode,
coverage-manager handle, readiness flag. -/
structure ControlUnit where
  strat : Option StrategyKind
  ex : Option Nat
  rm : String
  cm : Option Nat
  rdy : Bool
deriving DecidableEq

/-- The Go zero value of `ControlUnit`. -/
def initialControlUnit : ControlUnit :=
  { strat := none, ex := none, rm := "", cm := none, rdy := false }

/-- `ControlUnit.Init`: stores the executor, resolves the strategy name, and
sets the ready flag; an unrecognized name returns the error
`unknown fuzzing strategy: <name>` (the second component).  The updated
control unit is the first component of the result. -/
def ControlUnit.Init (cu : ControlUnit) (executor coverageManager : Nat)
    (runMode fuzzStrategyFlag : String) : ControlUnit × Option String :=
  let cu1 := { cu with ex := some executor }
  if fuzzStrategyFlag = StrategyNameParseVerifier then
    ({ cu1 with strat := some .strategyParseVerifierLog, rdy := true }, none)
  else if fuzzStrategyFlag = StrategyNamePointerArithmetic then
    ({ cu1 with strat := some (.strategyPointerArithmetic 60), rdy := true },
      none)
  else if fuzzStrategyFlag = StrategyNamePlayground then
    ({ cu1 with strat := some .strategyPlayground, rdy := true }, none)
  else if fuzzStrategyFlag = StrategyNameStackCorruption then
    ({ cu1 with strat := some .strategyStackCorruption, rdy := true }, none)
  else
    (cu1, some ("unknown fuzzing strategy: " ++ fuzzStrategyFlag))

/-- `ControlUnit.IsReady`. -/
def ControlUnit.IsReady (cu : ControlUnit) : Bool := cu.rdy

/-- `ControlUnit.RunFuzzer` delegates to `cu.strat.Fuzz(cu.ex, cu.cm)`.  The
model returns the strategy together with the two arguments, the Fuzz call
receives; a `nil` bound strategy (a Go panic) is `none`. -/
def ControlUnit.RunFuzzer (cu : ControlUnit) :
    Option (StrategyKind × Option Nat × Option Nat) :=
  match cu.strat with
  | some s => some (s, cu.ex, cu.cm)
  | none => none

/-! ## Metrics collection (`src/unnamed/part_001`)

Every operation of `MetricsCollection` runs under `metricsLock`, so each
increment and each read is a single atomic step; a concurrent execution is
therefore an arbitrary interleaving, i.e. an arbitrary finite sequence, of
these atomic events applied to the shared state.  The coverage manager's raw
path-to-lines map is modelled as an association list (one iteration order of
the Go map). -/

/-- Struct `MetricsCollection`: the two counters plus the coverage manager's
raw mapping, all guarded by one lock. -/
structure MetricsCollection where
  programsVerified : Int
  validPrograms : Int
  covMap : List (String × List Int)
deriving DecidableEq

/-- `recordVerifiedProgram`: one lock-guarded increment. -/
def MetricsCollection.recordVerifiedProgram (mc : MetricsCollection) :
    MetricsCollection :=
  { mc with programsVerified := mc.programsVerified + 1 }

/-- `recordValidProgram`: one lock-guarded increment. -/
def MetricsCollection.recordValidProgram (mc : MetricsCollection) :
    MetricsCollection :=
  { mc with validPrograms := mc.validPrograms + 1 }

/-- One atomic (lock-guarded) mutation event on the metrics state. -/
inductive MetricsEvent where
  | verifiedCall
  | validCall
deriving DecidableEq

/-- Apply one event. -/
def applyMetricsEvent (mc : MetricsCollection) : MetricsEvent → MetricsCollection
  | .verifiedCall => mc.recordVerifiedProgram
  | .validCall => mc.recordValidProgram

/-- Run an interleaving of recording calls. -/
def runMetricsEvents (mc : MetricsCollection) (evs : List MetricsEvent) :
    MetricsCollection :=
  evs.foldl applyMetricsEvent mc

/-- Number of `recordVerifiedProgram` calls in an interleaving. -/
def countVerifiedCalls : List MetricsEvent → Nat
  | [] => 0
  | .verifiedCall :: evs => countVerifiedCalls evs + 1
  | .validCall :: evs => countVerifiedCalls evs

/-- Number of `recordValidProgram` calls in an interleaving. -/
def countValidCalls : List MetricsEvent → Nat
  | [] => 0
  | .verifiedCall :: evs => countValidCalls evs
  | .validCall :: evs => countValidCalls evs + 1

/-- Struct `CoverageInfo`: per-file coverage snapshot entry. -/
structure CoverageInfo where
  fileName : String
  fullPath : String
  coveredLines : List Int
deriving DecidableEq

/-- Go's `strings.Split` restricted to the separator used by the source, a
single `/`, over the characters of the string. -/
def splitOnSlashChars : List Char → List (List Char)
  | [] => [[]]
  | c :: cs =>
    let r := splitOnSlashChars cs
    if c = '/' then [] :: r
    else (c :: r.headD []) :: r.tail

/-- Go's `strings.Split(s, "/")`. -/
def goSplitSlash (s : String) : List String :=
  (splitOnSlashChars s.data).map fun cs => String.mk cs

/-- The loop body of `getMetrics` for one raw map entry: split the path,
skip the entry if the split yields nothing, otherwise build one
`CoverageInfo` with the final segment as display name and the covered lines
appended to an empty list. -/
def pathCovInfo (filePath : String) (cov : List Int) : Option CoverageInfo :=
  let pathSplit := goSplitSlash filePath
  if pathSplit.length = 0 then none
  else some { fileName := pathSplit.getLastD "",
              fullPath := filePath,
              coveredLines := ([] : List Int) ++ cov }

/-- `getMetrics`: under a single lock acquisition, snapshot both counters and
derive the coverage breakdown from the raw map. -/
def MetricsCollection.getMetrics (mc : MetricsCollection) :
    Int × Int × List CoverageInfo :=
  (mc.programsVerified, mc.validPrograms,
    mc.covMap.filterMap fun e => pathCovInfo e.1 e.2)

/-! ## Helper lemmas -/

theorem toUnsigned32_lt (i : Int) : toUnsigned32 i < 2 ^ 32 := by
  unfold toUnsigned32; omega

theorem toUnsigned16_lt (i : Int) : toUnsigned16 i < 2 ^ 16 := by
  unfold toUnsigned16; omega

theorem encodeImmediateStOrLdInstruction_lt (insClass size mode dstNum srcNum : Nat)
    (imm off : Int) :
    encodeImmediateStOrLdInstruction insClass size mode dstNum srcNum imm off <
      2 ^ 64 := by
  unfold encodeImmediateStOrLdInstruction
  have h1 := toUnsigned32_lt imm
  have h2 := toUnsigned16_lt off
  have h3 : srcNum % 16 < 16 := Nat.mod_lt _ (by norm_num)
  have h4 : dstNum % 16 < 16 := Nat.mod_lt _ (by norm_num)
  have h5 : (insClass + size + mode) % 256 < 256 := Nat.mod_lt _ (by norm_num)
  omega

theorem wrap32_of_range (i : Int) (h1 : -2 ^ 31 ≤ i) (h2 : i < 2 ^ 31) :
    wrap32 i = i := by
  unfold wrap32; omega

/-- C1: for every memory instruction whose bytecode generation succeeds, the
result is exactly one 64-bit word, except for class load with mode immediate,
where it is exactly two words with the second all zero; no other class/mode
combination produces a trailing word. -/
theorem C1_generate_bytecode_word_count (c : MemoryInstruction) (bc : List Nat)
    (h : c.GenerateBytecode = some bc) :
    (c.InstructionClass = InsClassLd ∧ c.Mode = StLdModeIMM →
      ∃ w, w < 2 ^ 64 ∧ bc = [w, 0]) ∧
    (¬(c.InstructionClass = InsClassLd ∧ c.Mode = StLdModeIMM) →
      ∃ w, w < 2 ^ 64 ∧ bc = [w]) := by
  unfold MemoryInstruction.GenerateBytecode at h
  cases hd : c.DstReg with
  | none => rw [hd] at h; cases h
  | some d =>
    cases hs : c.SrcReg with
    | none => rw [hd, hs] at h; cases h
    | some s =>
      rw [hd, hs] at h
      dsimp only at h
      by_cases hc : c.InstructionClass = InsClassLd ∧ c.Mode = StLdModeIMM
      · rw [if_pos hc] at h
        have hbc := (Option.some.inj h).symm
        exact ⟨fun _ =>
          ⟨encodeImmediateStOrLdInstruction c.InstructionClass c.Size c.Mode
              d.RegisterNumber s.RegisterNumber c.Imm c.Offset,
            encodeImmediateStOrLdInstruction_lt _ _ _ _ _ _ _, by simpa using hbc⟩,
          fun hn => absurd hc hn⟩
      · rw [if_neg hc] at h
        have hbc := (Option.some.inj h).symm
        exact ⟨fun hcc => absurd hcc hc,
          fun _ =>
          ⟨encodeImmediateStOrLdInstruction c.InstructionClass c.Size c.Mode
              d.RegisterNumber s.RegisterNumber c.Imm c.Offset,
            encodeImmediateStOrLdInstruction_lt _ _ _ _ _ _ _, hbc⟩⟩

/-- Witness for C1 at the concrete instruction `LdMapByFd(RegR0, 5)`. -/
theorem C1_generate_bytecode_word_count_witness :
    ∃ w, w < 2 ^ 64 ∧ ([21474840600, 0] : List Nat) = [w, 0] := by
  have h : (LdMapByFd (some RegR0) 5).GenerateBytecode =
      some [21474840600, 0] := by decide
  exact (C1_generate_bytecode_word_count _ _ h).1 ⟨rfl, rfl⟩

/-- C2: a store built from an integer value in the 32-bit range is class
store-immediate with that value as immediate; from a register reference it is
class store-register with that source register and immediate 0; from any
other shape the factory yields `nil`. -/
theorem C2_new_store_operation_shapes (size : Nat) (dst : Option Register)
    (off : Int) :
    (∀ v : Int, -2 ^ 31 ≤ v → v < 2 ^ 31 →
      newStoreOperation size dst (.int v) off =
        some { InstructionClass := InsClassSt, DstReg := dst,
               Mode := StLdModeMEM, Size := size, SrcReg := some RegR0,
               Imm := v, Offset := off }) ∧
    (∀ r : Option Register,
      newStoreOperation size dst (.reg r) off =
        some { InstructionClass := InsClassStx, DstReg := dst,
               Mode := StLdModeMEM, Size := size, SrcReg := r,
               Imm := 0, Offset := off }) ∧
    newStoreOperation size dst .other off = none := by
  refine ⟨fun v h1 h2 => ?_, fun r => rfl, rfl⟩
  simp [newStoreOperation, wrap32_of_range v h1 h2]

/-- Witness for C2 at concrete inputs. -/
theorem C2_new_store_operation_shapes_witness :
    newStoreOperation StLdSizeW (some RegR3) (StoreSrc.int 7) 4 =
      some { InstructionClass := InsClassSt, DstReg := some RegR3,
             Mode := StLdModeMEM, Size := StLdSizeW, SrcReg := some RegR0,
             Imm := 7, Offset := 4 } ∧
    newStoreOperation StLdSizeW (some RegR3) (StoreSrc.reg (some RegR2)) 4 =
      some { InstructionClass := InsClassStx, DstReg := some RegR3,
             Mode := StLdModeMEM, Size := StLdSizeW, SrcReg := some RegR2,
             Imm := 0, Offset := 4 } ∧
    newStoreOperation StLdSizeW (some RegR3) StoreSrc.other 4 = none := by
  obtain ⟨h1, h2, h3⟩ := C2_new_store_operation_shapes StLdSizeW (some RegR3) 4
  exact ⟨h1 7 (by decide) (by decide), h2 (some RegR2), h3⟩

theorem decode_encode_dst (cls size mode dn sn : Nat) (imm off : Int)
    (hdn : dn < 16) :
    decodeDstRegNum (encodeImmediateStOrLdInstruction cls size mode dn sn imm off)
      = dn := by
  have hA := toUnsigned32_lt imm
  have hB := toUnsigned16_lt off
  unfold encodeImmediateStOrLdInstruction decodeDstRegNum
  omega

theorem decode_encode_src (cls size mode dn sn : Nat) (imm off : Int)
    (hsn : sn < 16) :
    decodeSrcRegNum (encodeImmediateStOrLdInstruction cls size mode dn sn imm off)
      = sn := by
  have hA := toUnsigned32_lt imm
  have hB := toUnsigned16_lt off
  unfold encodeImmediateStOrLdInstruction decodeSrcRegNum
  omega

theorem decode_encode_offset (cls size mode dn sn : Nat) (imm off : Int)
    (ho1 : -2 ^ 15 ≤ off) (ho2 : off < 2 ^ 15) :
    decodeOffset (encodeImmediateStOrLdInstruction cls size mode dn sn imm off)
      = off := by
  have hA := toUnsigned32_lt imm
  unfold encodeImmediateStOrLdInstruction decodeOffset toSigned16 toUnsigned16
  split <;> omega

theorem decode_encode_imm (cls size mode dn sn : Nat) (imm off : Int)
    (hi1 : -2 ^ 31 ≤ imm) (hi2 : imm < 2 ^ 31) :
    decodeImm (encodeImmediateStOrLdInstruction cls size mode dn sn imm off)
      = imm := by
  have hB := toUnsigned16_lt off
  unfold encodeImmediateStOrLdInstruction decodeImm toSigned32 toUnsigned32
  split <;> omega

theorem decode_encode_size (cls size mode dn sn : Nat) (imm off : Int)
    (hcls : cls < 8)
    (hsize : size = 0 ∨ size = 8 ∨ size = 16 ∨ size = 24)
    (hmode1 : mode % 32 = 0) (hmode2 : mode < 256) :
    decodeSize (encodeImmediateStOrLdInstruction cls size mode dn sn imm off)
      = size := by
  have hA := toUnsigned32_lt imm
  have hB := toUnsigned16_lt off
  unfold encodeImmediateStOrLdInstruction decodeSize
  rcases hsize with rfl | rfl | rfl | rfl <;> omega

/-- C3: a store-immediate instruction round-trips: for every supported
32-bit immediate, every destination register, every size and every 16-bit
offset, decoding the single generated word through the instruction set's
field layout recovers the destination register number, offset, size and
immediate exactly. -/
theorem C3_store_immediate_roundtrip (v off : Int) (dst : Register) (size : Nat)
    (hv1 : -2 ^ 31 ≤ v) (hv2 : v < 2 ^ 31)
    (ho1 : -2 ^ 15 ≤ off) (ho2 : off < 2 ^ 15)
    (hd : dst.registerNumber < 16)
    (hs : size = StLdSizeW ∨ size = StLdSizeH ∨ size = StLdSizeB ∨
      size = StLdSizeDW) :
    ∃ mi w, newStoreOperation size (some dst) (.int v) off = some mi ∧
      mi.GenerateBytecode = some [w] ∧
      decodeDstRegNum w = dst.RegisterNumber ∧
      decodeOffset w = off ∧
      decodeSize w = size ∧
      decodeImm w = v := by
  refine ⟨_, encodeImmediateStOrLdInstruction InsClassSt size StLdModeMEM
    dst.RegisterNumber RegR0.RegisterNumber (wrap32 v) off, rfl, rfl, ?_, ?_, ?_, ?_⟩
  · exact decode_encode_dst _ _ _ _ _ _ _ hd
  · exact decode_encode_offset _ _ _ _ _ _ _ ho1 ho2
  · exact decode_encode_size _ _ _ _ _ _ _ (by norm_num [InsClassSt]) hs
      (by norm_num [StLdModeMEM]) (by norm_num [StLdModeMEM])
  · rw [wrap32_of_range v hv1 hv2]
    exact decode_encode_imm _ _ _ _ _ _ _ hv1 hv2

/-- Witness for C3 at a concrete store of immediate -5 at offset -2. -/
theorem C3_store_immediate_roundtrip_witness :
    ∃ mi w, newStoreOperation StLdSizeH (some RegR3) (.int (-5)) (-2) =
        some mi ∧
      mi.GenerateBytecode = some [w] ∧
      decodeDstRegNum w = RegR3.RegisterNumber ∧
      decodeOffset w = -2 ∧
      decodeSize w = StLdSizeH ∧
      decodeImm w = -5 :=
  C3_store_immediate_roundtrip (-5) (-2) RegR3 StLdSizeH (by decide) (by decide)
    (by decide) (by decide) (by decide) (Or.inr (Or.inl rfl))

/-- C4: for every destination register and every integer handle representable
in 32 bits (including zero and negative values), `LdMapByFd` builds class
load, mode immediate, double-word size, the pseudo sentinel in the
source-register field, and the handle as immediate; its bytecode is exactly
two words, the second all-zero. -/
theorem C4_ld_map_by_fd (r : Register) (fd : Int)
    (h1 : -2 ^ 31 ≤ fd) (h2 : fd < 2 ^ 31) :
    (LdMapByFd (some r) fd).InstructionClass = InsClassLd ∧
    (LdMapByFd (some r) fd).Mode = StLdModeIMM ∧
    (LdMapByFd (some r) fd).Size = StLdSizeDW ∧
    (LdMapByFd (some r) fd).SrcReg = some PseudoMapFD ∧
    (LdMapByFd (some r) fd).Imm = fd ∧
    ∃ w, w < 2 ^ 64 ∧ (LdMapByFd (some r) fd).GenerateBytecode = some [w, 0] := by
  refine ⟨rfl, rfl, rfl, rfl, wrap32_of_range fd h1 h2, ?_⟩
  exact ⟨encodeImmediateStOrLdInstruction InsClassLd StLdSizeDW StLdModeIMM
      r.RegisterNumber PseudoMapFD.RegisterNumber (wrap32 fd) 0,
    encodeImmediateStOrLdInstruction_lt _ _ _ _ _ _ _, rfl⟩

/-- Witness for C4 at register r5 and the negative handle -3. -/
theorem C4_ld_map_by_fd_witness :
    (LdMapByFd (some RegR5) (-3)).InstructionClass = InsClassLd ∧
    (LdMapByFd (some RegR5) (-3)).Mode = StLdModeIMM ∧
    (LdMapByFd (some RegR5) (-3)).Size = StLdSizeDW ∧
    (LdMapByFd (some RegR5) (-3)).SrcReg = some PseudoMapFD ∧
    (LdMapByFd (some RegR5) (-3)).Imm = -3 ∧
    ∃ w, w < 2 ^ 64 ∧
      (LdMapByFd (some RegR5) (-3)).GenerateBytecode = some [w, 0] :=
  C4_ld_map_by_fd RegR5 (-3) (by decide) (by decide)

/-- C5: an arbitrary interleaving of lock-guarded recording calls from any
number of threads loses no update: the final counters equal the initial
counters plus the exact number of calls of each kind, and both counters are
monotonically non-decreasing along the run. -/
theorem C5_metrics_counters_exact (mc : MetricsCollection)
    (evs : List MetricsEvent) :
    (runMetricsEvents mc evs).programsVerified =
      mc.programsVerified + countVerifiedCalls evs ∧
    (runMetricsEvents mc evs).validPrograms =
      mc.validPrograms + countValidCalls evs ∧
    mc.programsVerified ≤ (runMetricsEvents mc evs).programsVerified ∧
    mc.validPrograms ≤ (runMetricsEvents mc evs).validPrograms := by
  induction evs generalizing mc with
  | nil => simp [runMetricsEvents, countVerifiedCalls, countValidCalls]
  | cons e evs ih =>
    have step : runMetricsEvents mc (e :: evs) =
        runMetricsEvents (applyMetricsEvent mc e) evs := rfl
    obtain ⟨ih1, ih2, ih3, ih4⟩ := ih (applyMetricsEvent mc e)
    cases e with
    | verifiedCall =>
      refine ⟨?_, ?_, ?_, ?_⟩ <;>
        simp only [step, ih1, ih2, countVerifiedCalls, countValidCalls,
          applyMetricsEvent, MetricsCollection.recordVerifiedProgram] at * <;>
        omega
    | validCall =>
      refine ⟨?_, ?_, ?_, ?_⟩ <;>
        simp only [step, ih1, ih2, countVerifiedCalls, countValidCalls,
          applyMetricsEvent, MetricsCollection.recordValidProgram] at * <;>
        omega

/-- C6 (evaluation at the failing input): initializing a fresh control unit
with executor handle 7, coverage-manager handle 9 and the recognized
strategy name `playground` succeeds and binds the executor, but the
coverage-manager field keeps its zero value `nil`, so `RunFuzzer` delegates
to the strategy with `nil` as coverage manager instead of handle 9. -/
theorem C6_init_drops_coverage_manager :
    (initialControlUnit.Init 7 9 "server" "playground").2 = none ∧
    (initialControlUnit.Init 7 9 "server" "playground").1.IsReady = true ∧
    (initialControlUnit.Init 7 9 "server" "playground").1.ex = some 7 ∧
    (initialControlUnit.Init 7 9 "server" "playground").1.cm = none ∧
    (initialControlUnit.Init 7 9 "server" "playground").1.RunFuzzer =
      some (.strategyPlayground, some 7, none) := by
  refine ⟨?_, ?_, ?_, ?_, ?_⟩ <;> decide

/-- C7: initializing a not-ready control unit with a strategy name outside
the recognized set returns an error and leaves it not-ready; each recognized
name returns no error, leaves it ready, and binds the corresponding concrete
strategy. -/
theorem C7_strategy_name_resolution (cu : ControlUnit) (e c : Nat)
    (rm flag : String) (hrdy : cu.rdy = false) :
    (flag ≠ StrategyNameParseVerifier → flag ≠ StrategyNamePointerArithmetic →
     flag ≠ StrategyNamePlayground → flag ≠ StrategyNameStackCorruption →
      (cu.Init e c rm flag).2 = some ("unknown fuzzing strategy: " ++ flag) ∧
      (cu.Init e c rm flag).1.IsReady = false) ∧
    ((cu.Init e c rm StrategyNameParseVerifier).2 = none ∧
     (cu.Init e c rm StrategyNameParseVerifier).1.IsReady = true ∧
     (cu.Init e c rm StrategyNameParseVerifier).1.strat =
       some .strategyParseVerifierLog) ∧
    ((cu.Init e c rm StrategyNamePointerArithmetic).2 = none ∧
     (cu.Init e c rm StrategyNamePointerArithmetic).1.IsReady = true ∧
     (cu.Init e c rm StrategyNamePointerArithmetic).1.strat =
       some (.strategyPointerArithmetic 60)) ∧
    ((cu.Init e c rm StrategyNamePlayground).2 = none ∧
     (cu.Init e c rm StrategyNamePlayground).1.IsReady = true ∧
     (cu.Init e c rm StrategyNamePlayground).1.strat =
       some .strategyPlayground) ∧
    ((cu.Init e c rm StrategyNameStackCorruption).2 = none ∧
     (cu.Init e c rm StrategyNameStackCorruption).1.IsReady = true ∧
     (cu.Init e c rm StrategyNameStackCorruption).1.strat =
       some .strategyStackCorruption) := by
  refine ⟨fun h1 h2 h3 h4 => ?_, ?_, ?_, ?_, ?_⟩
  · simp [ControlUnit.Init, ControlUnit.IsReady, h1, h2, h3, h4, hrdy]
  · simp [ControlUnit.Init, ControlUnit.IsReady]
  · simp [ControlUnit.Init, ControlUnit.IsReady, StrategyNameParseVerifier,
      StrategyNamePointerArithmetic]
  · simp [ControlUnit.Init, ControlUnit.IsReady, StrategyNameParseVerifier,
      StrategyNamePointerArithmetic, StrategyNamePlayground]
  · simp [ControlUnit.Init, ControlUnit.IsReady, StrategyNameParseVerifier,
      StrategyNamePointerArithmetic, StrategyNamePlayground,
      StrategyNameStackCorruption]

/-- Witness for C7 on a fresh control unit and the unrecognized name
`bogus`. -/
theorem C7_strategy_name_resolution_witness :
    ((initialControlUnit.Init 1 2 "m" "bogus").2 =
       some ("unknown fuzzing strategy: " ++ "bogus") ∧
     (initialControlUnit.Init 1 2 "m" "bogus").1.IsReady = false) ∧
    (initialControlUnit.Init 1 2 "m"
       StrategyNamePlayground).1.strat = some .strategyPlayground := by
  have h := C7_strategy_name_resolution initialControlUnit 1 2 "m" "bogus" rfl
  have h2 := C7_strategy_name_resolution initialControlUnit 1 2 "m"
    StrategyNamePlayground rfl
  exact ⟨h.1 (by decide) (by decide) (by decide) (by decide), h2.2.2.2.1.2.2⟩

/-- C8 (evaluation at the failing input): the macro line produced for the
register-to-register store `StDW(r1, r2, 4)` carries the Go bad-verb
rendering `%!d(string=r1)` of the register names, not the canonical names
themselves and the load/immediate macro for `LdMapByFd(r0, 5)` prints the
canonical destination name with the `map_fd` placeholder. -/
theorem C8_generate_poc_register_rendering :
    (∃ mi, StDW (some RegR1) (.reg (some RegR2)) 4 = some mi ∧
      mi.GeneratePoc = some ["BPF_MEM_OPERATION(BPF_STX, BPF_DW, /*dst=*/" ++
        "%!d(string=r1)" ++ ", /*src=*/" ++ "%!d(string=r2)" ++
        ", /*offset=*/4)"]) ∧
    (LdMapByFd (some RegR0) 5).GeneratePoc =
      some ["BPF_LD_MAP_FD(/*dst=*/r0, map_fd)"] ∧
    (∃ mi, StW (some RegR4) (.int 9) 2 = some mi ∧
      mi.GeneratePoc = some ["BPF_MEM_IMM_OPERATION(BPF_ST, BPF_W, /*dst=*/" ++
        "%!d(string=r4)" ++ ", /*src=*/9, /*offset=*/2)"]) := by
  refine ⟨⟨_, rfl, ?_⟩, ?_, ⟨_, rfl, ?_⟩⟩ <;> decide

theorem splitOnSlashChars_ne_nil (cs : List Char) : splitOnSlashChars cs ≠ [] := by
  cases cs with
  | nil => simp [splitOnSlashChars]
  | cons c cs =>
    simp only [splitOnSlashChars]
    split <;> simp

theorem goSplitSlash_ne_nil (s : String) : goSplitSlash s ≠ [] := by
  intro h
  exact splitOnSlashChars_ne_nil s.data (List.map_eq_nil_iff.mp h)

theorem pathCovInfo_eq (p : String) (cov : List Int) :
    pathCovInfo p cov =
      some { fileName := (goSplitSlash p).getLastD "", fullPath := p,
             coveredLines := cov } := by
  have h : ¬(goSplitSlash p).length = 0 := by
    simp [List.length_eq_zero, goSplitSlash_ne_nil p]
  simp [pathCovInfo, h]

/-- C9: `getMetrics` reads both counters and the coverage breakdown from one
state (one lock acquisition); every raw path contributes exactly one entry
whose display name is the final path segment of the raw path, whose full
path is the raw path, and whose covered lines are exactly the lines the
coverage manager provides, unchanged. -/
theorem C9_get_metrics_snapshot (mc : MetricsCollection) :
    mc.getMetrics = (mc.programsVerified, mc.validPrograms,
      mc.covMap.map fun e =>
        { fileName := (goSplitSlash e.1).getLastD "", fullPath := e.1,
          coveredLines := e.2 }) := by
  have hlist : ∀ l : List (String × List Int),
      l.filterMap (fun e => pathCovInfo e.1 e.2) = l.map fun e =>
        { fileName := (goSplitSlash e.1).getLastD "", fullPath := e.1,
          coveredLines := e.2 } := by
    intro l
    have hfe : (fun e : String × List Int => pathCovInfo e.1 e.2) =
        some ∘ (fun e : String × List Int =>
          ({ fileName := (goSplitSlash e.1).getLastD "", fullPath := e.1,
             coveredLines := e.2 } : CoverageInfo)) :=
      funext fun e => pathCovInfo_eq e.1 e.2
    rw [hfe, List.filterMap_eq_map]
  unfold MetricsCollection.getMetrics
  rw [hlist]

theorem generateBytecode_isSome_of_regs (c : MemoryInstruction)
    (hd : c.DstReg.isSome = true) (hs : c.SrcReg.isSome = true) :
    c.GenerateBytecode.isSome = true := by
  unfold MemoryInstruction.GenerateBytecode
  obtain ⟨d, hdd⟩ := Option.isSome_iff_exists.mp hd
  obtain ⟨s, hss⟩ := Option.isSome_iff_exists.mp hs
  rw [hdd, hss]
  dsimp only
  split <;> rfl

theorem generatePoc_isSome_of_regs (c : MemoryInstruction)
    (hd : c.DstReg.isSome = true) (hs : c.SrcReg.isSome = true) :
    c.GeneratePoc.isSome = true := by
  unfold MemoryInstruction.GeneratePoc
  obtain ⟨d, hdd⟩ := Option.isSome_iff_exists.mp hd
  obtain ⟨s, hss⟩ := Option.isSome_iff_exists.mp hs
  rw [hdd, hss]
  dsimp only
  split
  · rfl
  · split <;> rfl

/-- C10 (counterexample): a factory can return a non-nil instruction whose
destination register is nil: `newStoreOperation` called with a nil
destination pointer and an integer operand returns an instruction whose
`DstReg` is nil, and generating its bytecode dereferences that nil
register. -/
theorem C10_factory_nil_register_counterexample :
    ∃ mi, newStoreOperation StLdSizeDW none (.int 5) 0 = some mi ∧
      mi.DstReg = none ∧ mi.GenerateBytecode = none :=
  ⟨_, rfl, rfl, rfl⟩

/-- C10 (amended): provided the caller passes non-nil registers (a non-nil
destination, and for the register-operand store a non-nil source register),
every instruction the factories return non-nil has both register fields
populated non-nil - the semantically inactive operand is filled with `RegR0`
or the pseudo sentinel - so `GenerateBytecode` and `GeneratePoc` never
dereference a nil register on it. -/
theorem C10_factories_populate_registers (size cls : Nat) (d s : Register)
    (off op fd : Int) :
    (∀ src mi, newStoreOperation size (some d) src off = some mi →
      (∀ r, src = StoreSrc.reg r → r.isSome = true) →
      mi.DstReg.isSome = true ∧ mi.SrcReg.isSome = true ∧
      mi.GenerateBytecode.isSome = true ∧ mi.GeneratePoc.isSome = true) ∧
    ((newLoadToRegisterOperation size (some d) (some s) off).DstReg.isSome = true ∧
     (newLoadToRegisterOperation size (some d) (some s) off).SrcReg.isSome = true ∧
     (newLoadToRegisterOperation size (some d) (some s) off).GenerateBytecode.isSome = true ∧
     (newLoadToRegisterOperation size (some d) (some s) off).GeneratePoc.isSome = true) ∧
    ((LdMapByFd (some d) fd).DstReg.isSome = true ∧
     (LdMapByFd (some d) fd).SrcReg.isSome = true ∧
     (LdMapByFd (some d) fd).GenerateBytecode.isSome = true ∧
     (LdMapByFd (some d) fd).GeneratePoc.isSome = true) ∧
    ((newAtomicInstruction (some d) (some s) size cls off op).DstReg.isSome = true ∧
     (newAtomicInstruction (some d) (some s) size cls off op).SrcReg.isSome = true ∧
     (newAtomicInstruction (some d) (some s) size cls off op).GenerateBytecode.isSome = true ∧
     (newAtomicInstruction (some d) (some s) size cls off op).GeneratePoc.isSome = true) := by
  refine ⟨fun src mi hmi hreg => ?_,
    ⟨rfl, rfl, generateBytecode_isSome_of_regs _ rfl rfl,
      generatePoc_isSome_of_regs _ rfl rfl⟩,
    ⟨rfl, rfl, generateBytecode_isSome_of_regs _ rfl rfl,
      generatePoc_isSome_of_regs _ rfl rfl⟩,
    ⟨rfl, rfl, generateBytecode_isSome_of_regs _ rfl rfl,
      generatePoc_isSome_of_regs _ rfl rfl⟩⟩
  cases src with
  | int v =>
    obtain rfl := Option.some.inj hmi
    exact ⟨rfl, rfl, generateBytecode_isSome_of_regs _ rfl rfl,
      generatePoc_isSome_of_regs _ rfl rfl⟩
  | reg r =>
    have hr := hreg r rfl
    obtain ⟨rr, hrr⟩ := Option.isSome_iff_exists.mp hr
    subst hrr
    obtain rfl := Option.some.inj hmi
    exact ⟨rfl, rfl, generateBytecode_isSome_of_regs _ rfl rfl,
      generatePoc_isSome_of_regs _ rfl rfl⟩
  | other => cases hmi

/-- Witness for C10's amended statement at a concrete store. -/
theorem C10_factories_populate_registers_witness :
    ∃ mi, newStoreOperation StLdSizeW (some RegR1) (.int 3) 4 = some mi ∧
      (mi.DstReg.isSome = true ∧ mi.SrcReg.isSome = true ∧
       mi.GenerateBytecode.isSome = true ∧ mi.GeneratePoc.isSome = true) := by
  refine ⟨_, rfl, ?_⟩
  exact (C10_factories_populate_registers StLdSizeW InsClassStx RegR1 RegR2
    4 0 0).1 (.int 3) _ rfl (fun r hr => nomatch hr)
